import Mathlib

/-!
Shallow embedding of the glyph-pattern model of the addfeatures/hotconv
feature-file compiler (header FeatCtx.h): `AnchorMarkInfo`, `GPat.GlyphRec`,
`GPat.ClassRec`, `GPat`, the cross-product iterator, lookup-label
classification (`IS_REF_LAB`) and the tag-set helper `FeatCtx.addTag`.

Machine integers are embedded as `Nat` / `Int`; `std::vector` as `List`;
`std::unordered_set` as `Finset`.  `std::sort` (which guarantees only a
sorted permutation, not stability) is embedded relationally.
-/

/-- GID: 16-bit glyph index (embedded as `Nat`). -/
abbrev GID := Nat

/-- Tag: 32-bit four-character tag (embedded as `Nat`). -/
abbrev Tag := Nat

/-- Model of `AnchorMarkInfo` from FeatCtx.h (field defaults are all zero / empty). -/
structure AnchorMarkInfo where
  format : Nat
  markClassIndex : Int
  componentIndex : Int
  x : Int
  y : Int
  contourpoint : Nat
  markClassName : String
deriving DecidableEq

instance : Inhabited AnchorMarkInfo := ⟨⟨0, 0, 0, 0, 0, 0, ""⟩⟩

/-- Model of `AnchorMarkInfo::operator<`: compares componentIndex, markClassIndex,
format, x, y, and (only when format = 2) contourpoint, in that order. -/
def AnchorMarkInfo.lt (a rhs : AnchorMarkInfo) : Bool :=
  if a.componentIndex ≠ rhs.componentIndex then decide (a.componentIndex < rhs.componentIndex)
  else if a.markClassIndex ≠ rhs.markClassIndex then decide (a.markClassIndex < rhs.markClassIndex)
  else if a.format ≠ rhs.format then decide (a.format < rhs.format)
  else if a.x ≠ rhs.x then decide (a.x < rhs.x)
  else if a.y ≠ rhs.y then decide (a.y < rhs.y)
  else if a.format = 2 ∧ a.contourpoint ≠ rhs.contourpoint then decide (a.contourpoint < rhs.contourpoint)
  else false

/-- Model of `AnchorMarkInfo::operator==`: all numeric components match, with
contourpoint compared only when format = 2.  (`markClassName` is not
compared.) -/
def AnchorMarkInfo.beq (a rhs : AnchorMarkInfo) : Bool :=
  decide (a.componentIndex = rhs.componentIndex) &&
  decide (a.markClassIndex = rhs.markClassIndex) &&
  decide (a.format = rhs.format) &&
  decide (a.x = rhs.x) && decide (a.y = rhs.y) &&
  (decide (a.format ≠ 2) || decide (a.contourpoint = rhs.contourpoint))

/-- The strict lexicographic order on the key
(componentIndex, markClassIndex, format, x, y, contourpoint-when-format-2),
written out from the spec's words for comparison with the code's
`AnchorMarkInfo.lt`. -/
def AnchorMarkInfo.keyLt (a b : AnchorMarkInfo) : Prop :=
  a.componentIndex < b.componentIndex ∨ (a.componentIndex = b.componentIndex ∧
  (a.markClassIndex < b.markClassIndex ∨ (a.markClassIndex = b.markClassIndex ∧
  (a.format < b.format ∨ (a.format = b.format ∧
  (a.x < b.x ∨ (a.x = b.x ∧
  (a.y < b.y ∨ (a.y = b.y ∧
  (a.format = 2 ∧ a.contourpoint < b.contourpoint))))))))))

/-- Model of `GPat::GlyphRec`: a GID together with optional per-glyph anchor info. -/
structure GlyphRec where
  gid : GID
  markClassAnchorInfo : AnchorMarkInfo
deriving DecidableEq

instance : Inhabited GlyphRec := ⟨⟨0, default⟩⟩

/-- Model of `GPat::ClassRec`: one position of a pattern. -/
structure ClassRec where
  glyphs : List GlyphRec
  lookupLabels : List Int
  metricsInfo : List Int
  markClassName : String
  marked : Bool
  gclass : Bool
  backtrack : Bool
  input : Bool
  lookahead : Bool
  basenode : Bool
  marknode : Bool
  used_mark_class : Bool
deriving DecidableEq

instance : Inhabited ClassRec :=
  ⟨⟨[], [], [], "", false, false, false, false, false, false, false, false⟩⟩

/-- Model of `ClassRec::glyphInClass(gid)`: linear search of the glyph sequence
(`GlyphRec::operator==(GID)` compares only the gid). -/
def ClassRec.glyphInClass (cr : ClassRec) (gid : GID) : Bool :=
  cr.glyphs.any (fun gr => gr.gid == gid)

/-- Model of `ClassRec::is_glyph()`. -/
def ClassRec.is_glyph (cr : ClassRec) : Bool :=
  decide (cr.glyphs.length = 1) && !cr.gclass

/-- Model of `ClassRec::is_multi_class()`. -/
def ClassRec.is_multi_class (cr : ClassRec) : Bool :=
  decide (cr.glyphs.length > 1)

/-- Model of `ClassRec::is_class()`. -/
def ClassRec.is_class (cr : ClassRec) : Bool :=
  cr.is_multi_class || cr.gclass

/-- Model of `ClassRec::classSize()`. -/
def ClassRec.classSize (cr : ClassRec) : Nat :=
  cr.glyphs.length

/-- Model of `ClassRec::addGlyph(gid)`: `glyphs.emplace_back(gid)` (the new
`GlyphRec` carries default anchor info). -/
def ClassRec.addGlyph (cr : ClassRec) (gid : GID) : ClassRec :=
  { cr with glyphs := cr.glyphs ++ [⟨gid, default⟩] }

/-- Model of `ClassRec::concat(other)`: append the other record's glyphs. -/
def ClassRec.concat (cr other : ClassRec) : ClassRec :=
  { cr with glyphs := cr.glyphs ++ other.glyphs }

/-- Model of `ClassRec::sort()` calls `std::sort` with `GlyphRec::operator<`
(gid comparison only).  `std::sort` guarantees exactly: the result is a
permutation of the input that is sorted under the comparator; it does NOT
guarantee stability.  So the embedding is relational: `sortOutcome l l2`
holds iff `l2` is a possible result of `ClassRec::sort` on glyphs `l`. -/
def sortOutcome (l l2 : List GlyphRec) : Prop :=
  l2.Perm l ∧ List.Sorted (fun a b : GlyphRec => a.gid ≤ b.gid) l2

instance (l l2 : List GlyphRec) : Decidable (sortOutcome l l2) := by
  unfold sortOutcome; infer_instance

/-- Modelled from the spec: the driver-level seam that adds a glyph to a
mark class (`FeatCtx::addGlyphToCurrentGC` in FeatCtx.cpp, which is not
part of these sources).  Per the spec, once `used_mark_class` is set the
class participated in a position rule and adding a glyph is rejected as
an error, leaving the class unchanged; otherwise it appends via
`ClassRec::addGlyph`. -/
def ClassRec.addGlyphToMarkClass (cr : ClassRec) (gid : GID) : Except String ClassRec :=
  if cr.used_mark_class then
    Except.error "cannot add glyphs to a mark class used in a position rule"
  else
    Except.ok (cr.addGlyph gid)

/-- Model of `LAB_UNDEF` from FeatCtx.h. -/
def LAB_UNDEF : Nat := 0xFFFF

/-- Model of `REF_LAB` (1 << 15) from FeatCtx.h. -/
def REF_LAB : Nat := 0x8000

/-- Model of `IS_REF_LAB(L)`: `(L) != LAB_UNDEF && (L) & REF_LAB` (the C truthiness
of `L & REF_LAB` is "nonzero"). -/
def IS_REF_LAB (L : Nat) : Bool :=
  decide (L ≠ LAB_UNDEF) && decide (L &&& REF_LAB ≠ 0)

/-- Model of `FeatCtx::addTag(a, t)`: returns false (without inserting) when `t` is
not in the set, else emplaces (a no-op on an already-present element) and
returns true.  Embedded as a pure function returning (result, new set). -/
def FeatCtx.addTag (a : Finset Tag) (t : Tag) : Bool × Finset Tag :=
  if t ∉ a then (false, a)
  else (true, insert t a)

/-- Model of `GPat`: an ordered sequence of `ClassRec` positions plus sequence-level
flags. -/
structure GPat where
  classes : List ClassRec
  has_marked : Bool
  ignore_clause : Bool
  lookup_node : Bool
  enumerate : Bool
deriving DecidableEq

instance : Inhabited GPat := ⟨⟨[], false, false, false, false⟩⟩

/-- Model of `GPat::glyphInClass(gid, idx)`: guarded accessor; out-of-range `idx`
returns false. -/
def GPat.glyphInClass (p : GPat) (gid : GID) (idx : Nat) : Bool :=
  if p.classes.length ≤ idx then false
  else (p.classes.getD idx default).glyphInClass gid

/-- Model of `GPat::classSize(idx)`: guarded accessor; out-of-range `idx` returns 0. -/
def GPat.classSize (p : GPat) (idx : Nat) : Nat :=
  if p.classes.length ≤ idx then 0
  else (p.classes.getD idx default).classSize

/-- Model of `GPat::sortClass(idx)`: out-of-range `idx` is a no-op, otherwise the
class at `idx` has its glyphs sorted by `ClassRec::sort` (`std::sort`).
Since `std::sort` is only relationally specified, the sorting pass itself
is a parameter `sortFn`; the guard is what this embedding pins down. -/
def GPat.sortClass (sortFn : List GlyphRec → List GlyphRec) (p : GPat) (idx : Nat) : GPat :=
  if p.classes.length ≤ idx then p
  else
    let cr := p.classes.getD idx default
    { p with classes := p.classes.set idx { cr with glyphs := sortFn cr.glyphs } }

/-- Model of `GPat::makeClassUnique(g, idx)`: out-of-range `idx` is a no-op,
otherwise applies `ClassRec::makeUnique` (defined in FeatCtx.cpp, not in
these sources, hence a parameter `mu`) to the class at `idx`. -/
def GPat.makeClassUnique (mu : ClassRec → ClassRec) (p : GPat) (idx : Nat) : GPat :=
  if p.classes.length ≤ idx then p
  else { p with classes := p.classes.set idx (mu (p.classes.getD idx default)) }

/-- State of `GPat::CrossProductIterator`: the classes (projected to their
glyph GID sequences, the only data `next()` reads), the index odometer
(a `std::vector<uint16_t>` in the source: the values are embedded as `Nat`
but the only arithmetic ever applied to them, the increment in `cpIncr`,
wraps explicitly at 65536, so every reachable index value fits uint16_t),
and the `first` flag. -/
structure CrossProductIterator where
  classes : List (List GID)
  indices : List Nat
  first : Bool
deriving DecidableEq

/-- The iterator's constructor: indices start at all-zero, `first` is set. -/
def CrossProductIterator.init (cs : List (List GID)) : CrossProductIterator :=
  ⟨cs, cs.map (fun _ => 0), true⟩

/-- The odometer loop inside `next()`: `++indices[i]` acts on a
`uint16_t`, so the incremented value is `(i + 1) % 65536`; it is kept if
still below `classes[i]->glyphs.size()`, else that index is reset to 0
and the carry moves to position `i + 1`; `none` means the loop ran off
the end (all indices were reset to 0 and `next()` returns false).  Note
the wrap: on a class with at least 65536 glyph records the increment
wraps back to 0 before ever reaching the class size, so the carry never
propagates past that position. -/
def cpIncr : List (List GID) → List Nat → Option (List Nat)
  | [], _ => none
  | _, [] => none
  | c :: cs, i :: is =>
    if (i + 1) % 65536 < c.length then some ((i + 1) % 65536 :: is)
    else
      match cpIncr cs is with
      | none => none
      | some js => some (0 :: js)

/-- The yield loop inside `next()`: `gids.push_back(classes[i]->glyphs[indices[i]].gid)`. -/
def cpTuple : List (List GID) → List Nat → List GID
  | c :: cs, i :: is => c.getD i 0 :: cpTuple cs is
  | _, _ => []

/-- Model of `GPat::CrossProductIterator::next(gids)`: on the first call yield the
tuple at the current (all-zero) indices; afterwards advance the odometer
and yield, or return `none` once it wraps (the wrap leaves every index
reset to 0 and clears nothing else, so the state is NOT terminal). -/
def CrossProductIterator.next (s : CrossProductIterator) :
    Option (List GID) × CrossProductIterator :=
  if s.first then
    (some (cpTuple s.classes s.indices), { s with first := false })
  else
    match cpIncr s.classes s.indices with
    | none => (none, { s with indices := s.indices.map (fun _ => 0) })
    | some js => (some (cpTuple s.classes js), { s with indices := js })

/-- The results of `n` successive calls to `next()`. -/
def CrossProductIterator.outputs : CrossProductIterator → Nat → List (Option (List GID))
  | _, 0 => []
  | s, n + 1 => (s.next).1 :: (s.next).2.outputs n

/-- The lexicographic Cartesian product (leftmost position most
significant), written out from the claim's words for comparison with the
iterator's actual order. -/
def lexProduct : List (List GID) → List (List GID)
  | [] => [[]]
  | c :: cs => c.flatMap (fun g => (lexProduct cs).map (fun t => g :: t))

/-- The colexicographic Cartesian product: the FIRST position varies
fastest, matching the iterator's odometer which increments `indices[0]`
first. -/
def colexProduct : List (List GID) → List (List GID)
  | [] => [[]]
  | c :: cs => (colexProduct cs).flatMap (fun t => c.map (fun g => g :: t))

/-- Index tuples that are in range position by position, over classes
small enough (at most 65535 glyph records each) that the 16-bit odometer
increment cannot wrap while an index is in range. -/
def cpValid : List (List GID) → List Nat → Bool
  | [], [] => true
  | c :: cs, i :: is =>
    decide (i < c.length) && decide (c.length ≤ 65535) && cpValid cs is
  | _, _ => false

/-- The GID tuples strictly after the tuple at indices `is`, in the
iterator's (colexicographic) order. -/
def tailColex : List (List GID) → List Nat → List (List GID)
  | [], _ => []
  | _, [] => []
  | c :: cs, i :: is =>
    (c.drop (i + 1)).map (fun g => g :: cpTuple cs is)
      ++ (tailColex cs is).flatMap (fun t => c.map (fun g => g :: t))

/-- C3: `is_glyph()` holds iff the glyph sequence has exactly one element
and `gclass` is unset; `is_class()` holds iff the glyph sequence has more
than one element or `gclass` is set. -/
theorem is_glyph_is_class_iff (cr : ClassRec) :
    (cr.is_glyph = true ↔ (cr.glyphs.length = 1 ∧ cr.gclass = false)) ∧
    (cr.is_class = true ↔ (cr.glyphs.length > 1 ∨ cr.gclass = true)) := by
  constructor
  · simp [ClassRec.is_glyph]
  · simp [ClassRec.is_class, ClassRec.is_multi_class]

/-- C4 (amended): `operator==` on `AnchorMarkInfo` holds iff
componentIndex, markClassIndex, format, x and y match, with contourpoint
compared only when format is 2; `markClassName` is NOT compared. -/
theorem beq_iff_components (a b : AnchorMarkInfo) :
    a.beq b = true ↔
      (a.componentIndex = b.componentIndex ∧ a.markClassIndex = b.markClassIndex ∧
       a.format = b.format ∧ a.x = b.x ∧ a.y = b.y ∧
       (a.format ≠ 2 ∨ a.contourpoint = b.contourpoint)) := by
  simp [AnchorMarkInfo.beq, and_assoc]

/-- C4 counterexample: two anchors that differ in `markClassName` but agree
in every numeric component compare equal under `operator==`, refuting the
claim that equality requires all components including `markClassName` to
match. -/
theorem beq_ignores_markClassName :
    AnchorMarkInfo.beq ⟨1, 0, 0, 0, 0, 0, "p"⟩ ⟨1, 0, 0, 0, 0, 0, "q"⟩ = true ∧
    (AnchorMarkInfo.mk 1 0 0 0 0 0 "p").markClassName ≠
      (AnchorMarkInfo.mk 1 0 0 0 0 0 "q").markClassName := by decide

set_option maxHeartbeats 2000000 in
/-- C5: `operator<` on `AnchorMarkInfo` is the lexicographic strict order
on the key (componentIndex, markClassIndex, format, x, y, contourpoint —
the last only when format is 2), and for every pair exactly one of
`a < b`, `b < a`, `a == b` holds. -/
theorem lt_lex_trichotomy (a b : AnchorMarkInfo) :
    (AnchorMarkInfo.lt a b = true ↔ AnchorMarkInfo.keyLt a b) ∧
    ((AnchorMarkInfo.lt a b = true ∧ AnchorMarkInfo.lt b a = false ∧ AnchorMarkInfo.beq a b = false) ∨
     (AnchorMarkInfo.lt a b = false ∧ AnchorMarkInfo.lt b a = true ∧ AnchorMarkInfo.beq a b = false) ∨
     (AnchorMarkInfo.lt a b = false ∧ AnchorMarkInfo.lt b a = false ∧ AnchorMarkInfo.beq a b = true)) := by
  obtain ⟨f1, m1, c1, x1, y1, p1, n1⟩ := a
  obtain ⟨f2, m2, c2, x2, y2, p2, n2⟩ := b
  simp only [AnchorMarkInfo.lt, AnchorMarkInfo.beq, AnchorMarkInfo.keyLt]
  constructor
  · split_ifs <;> simp_all
  · split_ifs <;> simp_all <;> omega

/-- C6 (amended): for a 16-bit label, `IS_REF_LAB` holds iff the high bit
0x8000 is set AND the label is not `LAB_UNDEF` (0xFFFF, whose high bit is
set but which is not a reference). -/
theorem isRefLab_iff (L : Nat) (_h : L < 65536) :
    IS_REF_LAB L = true ↔ (L &&& REF_LAB ≠ 0 ∧ L ≠ LAB_UNDEF) := by
  simp [IS_REF_LAB, and_comm]

/-- Witness for `isRefLab_iff` at L = 0x8001. -/
theorem isRefLab_iff_witness :
    0x8001 < 65536 ∧
    (IS_REF_LAB 0x8001 = true ↔ (0x8001 &&& REF_LAB ≠ 0 ∧ 0x8001 ≠ LAB_UNDEF)) :=
  ⟨by decide, isRefLab_iff 0x8001 (by decide)⟩

/-- C6 counterexample: `LAB_UNDEF` (0xFFFF) has the high bit 0x8000 set
yet `IS_REF_LAB` classifies it as not-a-reference, refuting "IS_REF_LAB
holds exactly when the high bit is set". -/
theorem isRefLab_undef_high_bit :
    IS_REF_LAB LAB_UNDEF = false ∧ LAB_UNDEF &&& REF_LAB ≠ 0 := by decide

/-- C7: adding a glyph to a `ClassRec` whose `used_mark_class` flag is set
is rejected as an error; the class (in particular its glyph sequence) is
unchanged because no updated record is produced. -/
theorem used_mark_class_add_rejected (cr : ClassRec) (gid : GID)
    (h : cr.used_mark_class = true) :
    cr.addGlyphToMarkClass gid =
      Except.error "cannot add glyphs to a mark class used in a position rule" := by
  simp [ClassRec.addGlyphToMarkClass, h]

/-- Witness for `used_mark_class_add_rejected` on a concrete mark class. -/
theorem used_mark_class_add_rejected_witness :
    (ClassRec.mk [] [] [] "" false false false false false false false true).used_mark_class = true ∧
    (ClassRec.mk [] [] [] "" false false false false false false false true).addGlyphToMarkClass 7 =
      Except.error "cannot add glyphs to a mark class used in a position rule" :=
  ⟨by decide, used_mark_class_add_rejected _ 7 (by decide)⟩

/-- C8: `concat(other)` appends the other record's glyph sequence to this
record's glyph sequence and leaves every other field (role bits,
lookupLabels, metricsInfo, markClassName) unchanged.  (`other` is taken by
const reference in the source and is never written.) -/
theorem concat_appends_preserves (c other : ClassRec) :
    (c.concat other).glyphs = c.glyphs ++ other.glyphs ∧
    (c.concat other).lookupLabels = c.lookupLabels ∧
    (c.concat other).metricsInfo = c.metricsInfo ∧
    (c.concat other).markClassName = c.markClassName ∧
    (c.concat other).marked = c.marked ∧
    (c.concat other).gclass = c.gclass ∧
    (c.concat other).backtrack = c.backtrack ∧
    (c.concat other).input = c.input ∧
    (c.concat other).lookahead = c.lookahead ∧
    (c.concat other).basenode = c.basenode ∧
    (c.concat other).marknode = c.marknode ∧
    (c.concat other).used_mark_class = c.used_mark_class := by
  simp [ClassRec.concat]

/-- C9: `FeatCtx::addTag` never changes the tag set, and returns true iff
the tag was already present (so it never inserts a new tag). -/
theorem addTag_never_inserts (a : Finset Tag) (t : Tag) :
    (FeatCtx.addTag a t).2 = a ∧ ((FeatCtx.addTag a t).1 = true ↔ t ∈ a) := by
  by_cases h : t ∈ a
  · simp [FeatCtx.addTag, h, Finset.insert_eq_self.mpr h]
  · simp [FeatCtx.addTag, h]

/-- C10: at any index at or past the number of classes, the guarded `GPat`
accessors are total no-ops: `glyphInClass` is false, `classSize` is 0, and
`sortClass` / `makeClassUnique` return the pattern unchanged (for any
behavior `sortFn` / `mu` of the underlying class operations, which are
never reached). -/
theorem gpat_accessors_out_of_range (sortFn : List GlyphRec → List GlyphRec)
    (mu : ClassRec → ClassRec) (p : GPat) (gid : GID) (idx : Nat)
    (h : p.classes.length ≤ idx) :
    p.glyphInClass gid idx = false ∧ p.classSize idx = 0 ∧
    GPat.sortClass sortFn p idx = p ∧ GPat.makeClassUnique mu p idx = p := by
  simp [GPat.glyphInClass, GPat.classSize, GPat.sortClass, GPat.makeClassUnique, h]

/-- Witness for `gpat_accessors_out_of_range` on a one-class pattern at
index 3. -/
theorem gpat_accessors_out_of_range_witness :
    (GPat.mk [default] false false false false).classes.length ≤ 3 ∧
    ((GPat.mk [default] false false false false).glyphInClass 9 3 = false ∧
     (GPat.mk [default] false false false false).classSize 3 = 0 ∧
     GPat.sortClass id (GPat.mk [default] false false false false) 3 =
       GPat.mk [default] false false false false ∧
     GPat.makeClassUnique id (GPat.mk [default] false false false false) 3 =
       GPat.mk [default] false false false false) :=
  ⟨by decide, gpat_accessors_out_of_range id id _ 9 3 (by decide)⟩

/-- C2 counterexample: on two glyph records with equal GID 5 but different
anchor info, the swapped list is a legitimate outcome of `ClassRec::sort`
(`std::sort` guarantees only a sorted permutation), yet it is not the
stable outcome (the input is already GID-sorted, so stability would force
the output to equal the input).  Hence `sort()` is not stable. -/
theorem sort_not_stable :
    sortOutcome
      [⟨5, ⟨0, 0, 0, 1, 0, 0, ""⟩⟩, ⟨5, ⟨0, 0, 0, 2, 0, 0, ""⟩⟩]
      [⟨5, ⟨0, 0, 0, 2, 0, 0, ""⟩⟩, ⟨5, ⟨0, 0, 0, 1, 0, 0, ""⟩⟩] ∧
    ([⟨5, ⟨0, 0, 0, 2, 0, 0, ""⟩⟩, ⟨5, ⟨0, 0, 0, 1, 0, 0, ""⟩⟩] : List GlyphRec) ≠
      [⟨5, ⟨0, 0, 0, 1, 0, 0, ""⟩⟩, ⟨5, ⟨0, 0, 0, 2, 0, 0, ""⟩⟩] := by decide

/-- C2 (amended): every outcome of `ClassRec::sort` is a permutation of
the input glyphs whose GID projection is in ascending order, and that GID
projection is uniquely determined (any two outcomes agree on it); only the
arrangement of equal-GID records is unspecified. -/
theorem sort_gid_sorted_unique (l l2 l3 : List GlyphRec)
    (h2 : sortOutcome l l2) (h3 : sortOutcome l l3) :
    (l2.map GlyphRec.gid).Perm (l.map GlyphRec.gid) ∧
    List.Sorted (fun a b : GID => a ≤ b) (l2.map GlyphRec.gid) ∧
    l2.map GlyphRec.gid = l3.map GlyphRec.gid := by
  obtain ⟨hp2, hs2⟩ := h2
  obtain ⟨hp3, hs3⟩ := h3
  refine ⟨hp2.map _, List.Pairwise.map _ (fun _ _ hab => hab) hs2, ?_⟩
  exact List.eq_of_perm_of_sorted
    ((hp2.map GlyphRec.gid).trans (hp3.map GlyphRec.gid).symm)
    (List.Pairwise.map _ (fun _ _ hab => hab) hs2)
    (List.Pairwise.map _ (fun _ _ hab => hab) hs3)

/-- Witness for `sort_gid_sorted_unique` on a concrete two-glyph list. -/
theorem sort_gid_sorted_unique_witness :
    sortOutcome [⟨1, default⟩, ⟨0, default⟩] [⟨0, default⟩, ⟨1, default⟩] ∧
    (((([⟨0, default⟩, ⟨1, default⟩] : List GlyphRec).map GlyphRec.gid).Perm
        (([⟨1, default⟩, ⟨0, default⟩] : List GlyphRec).map GlyphRec.gid)) ∧
     List.Sorted (fun a b : GID => a ≤ b)
       (([⟨0, default⟩, ⟨1, default⟩] : List GlyphRec).map GlyphRec.gid) ∧
     ([⟨0, default⟩, ⟨1, default⟩] : List GlyphRec).map GlyphRec.gid =
       ([⟨0, default⟩, ⟨1, default⟩] : List GlyphRec).map GlyphRec.gid) :=
  ⟨by decide, sort_gid_sorted_unique _ _ _ (by decide) (by decide)⟩

/-- The all-zero start indices are in range when every class is non-empty
and has at most 65535 glyph records. -/
theorem cpValid_zeros (cs : List (List GID))
    (h : ∀ c ∈ cs, c ≠ [] ∧ c.length ≤ 65535) :
    cpValid cs (cs.map (fun _ => 0)) = true := by
  induction cs with
  | nil => rfl
  | cons c cs ih =>
    simp only [List.map_cons, cpValid, Bool.and_eq_true, decide_eq_true_eq]
    obtain ⟨hne, hle⟩ := h c (by simp)
    exact ⟨⟨List.length_pos.mpr hne, hle⟩, ih (fun x hx => h x (by simp [hx]))⟩

/-- The colexicographic product is the tuple at all-zero indices followed
by its colexicographic successors. -/
theorem colexProduct_eq_cons (cs : List (List GID)) (h : ∀ c ∈ cs, c ≠ []) :
    colexProduct cs
      = cpTuple cs (cs.map (fun _ => 0)) :: tailColex cs (cs.map (fun _ => 0)) := by
  induction cs with
  | nil => rfl
  | cons c cs ih =>
    obtain ⟨g, c2, rfl⟩ : ∃ g c2, c = g :: c2 := by
      cases c with
      | nil => exact absurd rfl (h [] (by simp))
      | cons g c2 => exact ⟨g, c2, rfl⟩
    have ih2 := ih (fun x hx => h x (by simp [hx]))
    simp only [colexProduct, List.map_cons, cpTuple, tailColex, ih2]
    simp

/-- When the odometer wraps, no tuples remain after the current indices. -/
theorem cpIncr_none_tailColex (cs : List (List GID)) (is : List Nat)
    (hv : cpValid cs is = true) (h : cpIncr cs is = none) :
    tailColex cs is = [] := by
  induction cs generalizing is with
  | nil =>
    cases is with
    | nil => rfl
    | cons i is => simp [cpValid] at hv
  | cons c cs ih =>
    cases is with
    | nil => simp [cpValid] at hv
    | cons i is =>
      simp only [cpValid, Bool.and_eq_true, decide_eq_true_eq] at hv
      obtain ⟨⟨hi, hle⟩, hv2⟩ := hv
      have hm : (i + 1) % 65536 = i + 1 := Nat.mod_eq_of_lt (by omega)
      simp only [cpIncr, hm] at h
      by_cases hlt : i + 1 < c.length
      · simp [hlt] at h
      · simp only [if_neg hlt] at h
        cases hich : cpIncr cs is with
        | none =>
          have ht := ih is hv2 hich
          have hdrop : c.drop (i + 1) = [] := List.drop_eq_nil_of_le (Nat.le_of_not_lt hlt)
          simp [tailColex, ht, hdrop]
        | some js => simp [hich] at h

/-- When the odometer advances to `js`, `js` is in range and the tuples
after `is` are the tuple at `js` followed by the tuples after `js`. -/
theorem cpIncr_some_tailColex (cs : List (List GID)) (is js : List Nat)
    (hv : cpValid cs is = true) (h : cpIncr cs is = some js) :
    cpValid cs js = true ∧ tailColex cs is = cpTuple cs js :: tailColex cs js := by
  induction cs generalizing is js with
  | nil =>
    cases is with
    | nil => simp [cpIncr] at h
    | cons i is => simp [cpIncr] at h
  | cons cl cs ih =>
    cases is with
    | nil => simp [cpValid] at hv
    | cons i is =>
      simp only [cpValid, Bool.and_eq_true, decide_eq_true_eq] at hv
      obtain ⟨⟨hi, hle⟩, hv2⟩ := hv
      have hm : (i + 1) % 65536 = i + 1 := Nat.mod_eq_of_lt (by omega)
      simp only [cpIncr, hm] at h
      by_cases hlt : i + 1 < cl.length
      · simp only [if_pos hlt, Option.some.injEq] at h
        subst h
        refine ⟨by simp [cpValid, hlt, hle, hv2], ?_⟩
        have hgd : cl.getD (i + 1) 0 = cl.get ⟨i + 1, hlt⟩ := List.getD_eq_getElem cl 0 hlt
        simp only [tailColex, cpTuple, List.drop_eq_getElem_cons hlt, List.map_cons, hgd,
          List.cons_append, List.get_eq_getElem]
      · simp only [if_neg hlt] at h
        cases hich : cpIncr cs is with
        | none => simp [hich] at h
        | some js2 =>
          simp only [hich, Option.some.injEq] at h
          subst h
          obtain ⟨hvj, htail⟩ := ih is js2 hv2 hich
          have hlen : 0 < cl.length := Nat.lt_of_le_of_lt (Nat.zero_le i) hi
          obtain ⟨g, c2, rfl⟩ : ∃ g c2, cl = g :: c2 := by
            cases cl with
            | nil => simp at hlen
            | cons g c2 => exact ⟨g, c2, rfl⟩
          have hdrop : (g :: c2).drop (i + 1) = [] :=
            List.drop_eq_nil_of_le (Nat.le_of_not_lt hlt)
          have hvb : cpValid ((g :: c2) :: cs) (0 :: js2) = true := by
            simp only [cpValid, Bool.and_eq_true, decide_eq_true_eq]
            exact ⟨⟨hlen, hle⟩, hvj⟩
          refine ⟨hvb, ?_⟩
          simp [tailColex, hdrop, htail, cpTuple]

/-- From any reachable non-first iterator state with in-range indices,
the following calls yield exactly the remaining tuples (in colex order)
and then return false. -/
theorem outputs_from_state (n : Nat) :
    ∀ (cs : List (List GID)) (is : List Nat), cpValid cs is = true →
    (tailColex cs is).length = n →
    CrossProductIterator.outputs ⟨cs, is, false⟩ (n + 1)
      = (tailColex cs is).map some ++ [none] := by
  induction n with
  | zero =>
    intro cs is hv hlen
    have hnil : tailColex cs is = [] := List.length_eq_zero.mp hlen
    cases hich : cpIncr cs is with
    | some js =>
      obtain ⟨_, ht⟩ := cpIncr_some_tailColex cs is js hv hich
      rw [ht] at hnil
      cases hnil
    | none =>
      simp [CrossProductIterator.outputs, CrossProductIterator.next, hich, hnil]
  | succ n ih =>
    intro cs is hv hlen
    cases hich : cpIncr cs is with
    | none =>
      rw [cpIncr_none_tailColex cs is hv hich] at hlen
      simp at hlen
    | some js =>
      obtain ⟨hvj, ht⟩ := cpIncr_some_tailColex cs is js hv hich
      have hlen2 : (tailColex cs js).length = n := by
        rw [ht] at hlen
        simpa using hlen
      have ih2 := ih cs js hvj hlen2
      have hnext : CrossProductIterator.next ⟨cs, is, false⟩
          = (some (cpTuple cs js), ⟨cs, js, false⟩) := by
        simp [CrossProductIterator.next, hich]
      have hstep : CrossProductIterator.outputs ⟨cs, is, false⟩ (n + 1 + 1)
          = (CrossProductIterator.next ⟨cs, is, false⟩).1
            :: (CrossProductIterator.next ⟨cs, is, false⟩).2.outputs (n + 1) := rfl
      rw [hstep, hnext, ih2, ht]
      simp

/-- C1 (amended): for every sequence of non-empty classes each holding at
most 65535 glyph records (so that the iterator's `std::vector<uint16_t>`
index odometer never wraps while in range), `next()` yields every
GID-tuple of the Cartesian product exactly once, in COLEXICOGRAPHIC order
of the index tuples (the first index varies fastest), with the first
yielded tuple the one at all-zero indices, and the single call
immediately after the last tuple returns false.  (On a class with 65536
or more glyph records the uint16_t increment wraps to 0 below the class
size and `next()` cycles forever without returning false.) -/
theorem crossProductIterator_yields_colex (cs : List (List GID))
    (h : ∀ c ∈ cs, c ≠ [] ∧ c.length ≤ 65535) :
    CrossProductIterator.outputs (CrossProductIterator.init cs)
        ((colexProduct cs).length + 1)
      = (colexProduct cs).map some ++ [none] ∧
    (colexProduct cs).head? = some (cpTuple cs (cs.map (fun _ => 0))) := by
  have hz := cpValid_zeros cs h
  have hc := colexProduct_eq_cons cs (fun c hcm => (h c hcm).1)
  refine ⟨?_, by rw [hc]; rfl⟩
  rw [hc]
  simp only [List.length_cons]
  have hnext : CrossProductIterator.next (CrossProductIterator.init cs)
      = (some (cpTuple cs (cs.map (fun _ => 0))), ⟨cs, cs.map (fun _ => 0), false⟩) := by
    simp [CrossProductIterator.next, CrossProductIterator.init]
  have hstep : CrossProductIterator.outputs (CrossProductIterator.init cs)
        ((tailColex cs (cs.map (fun _ => 0))).length + 1 + 1)
      = (CrossProductIterator.next (CrossProductIterator.init cs)).1
        :: (CrossProductIterator.next (CrossProductIterator.init cs)).2.outputs
             ((tailColex cs (cs.map (fun _ => 0))).length + 1) := rfl
  rw [hstep, hnext,
    outputs_from_state (tailColex cs (cs.map (fun _ => 0))).length cs
      (cs.map (fun _ => 0)) hz rfl]
  simp

/-- Witness for `crossProductIterator_yields_colex` on the two classes
[0,1] and [2,3]. -/
theorem crossProductIterator_yields_colex_witness :
    (∀ c ∈ ([[0, 1], [2, 3]] : List (List GID)), c ≠ [] ∧ c.length ≤ 65535) ∧
    (CrossProductIterator.outputs (CrossProductIterator.init [[0, 1], [2, 3]])
        ((colexProduct [[0, 1], [2, 3]]).length + 1)
      = (colexProduct [[0, 1], [2, 3]]).map some ++ [none] ∧
     (colexProduct [[0, 1], [2, 3]]).head?
      = some (cpTuple [[0, 1], [2, 3]] ([[0, 1], [2, 3]].map (fun _ => 0)))) :=
  ⟨by decide, crossProductIterator_yields_colex [[0, 1], [2, 3]] (by decide)⟩

/-- C1 counterexample: on classes [0,1] and [2,3] the iterator yields
[0,2], [1,2], [0,3], [1,3] — the FIRST index varies fastest — which is
not the lexicographic order of the index tuples; and on the single class
[0,1] the call after the one that returned false yields a tuple again
(the wrap resets the indices to 0, so the iteration restarts), refuting
"next() returns false on every subsequent call". -/
theorem crossProductIterator_not_lex_not_terminal :
    CrossProductIterator.outputs (CrossProductIterator.init [[0, 1], [2, 3]]) 4
      ≠ (lexProduct [[0, 1], [2, 3]]).map some ∧
    CrossProductIterator.outputs (CrossProductIterator.init [[0, 1], [2, 3]]) 4
      = [some [0, 2], some [1, 2], some [0, 3], some [1, 3]] ∧
    CrossProductIterator.outputs (CrossProductIterator.init [[0, 1]]) 4
      = [some [0], some [1], none, some [1]] := by decide
